import Mathlib

/-!
Verification of the Drive vector store module (src/app/vector_store.py).

The module loads three artifacts (a numeric embedding matrix, a metadata
document, a line-delimited documents file) into an in-memory store,
L2-normalizes every embedding row at load time, and serves cosine-similarity
top-K search over the store.  Real numbers model the floating-point values of
the original code; the claims about tolerance become exact statements over ℝ.

Modelling conventions:
- json.loads output is the inductive `Json`; Python truthiness is `truthy`.
- A numpy array loaded from disk is `NpArray` (1-D or 2-D, matching the
  reshape in `_load_embeddings`).
- numpy argsort is modelled as a sort by score; numpy argpartition is
  modelled as a full ascending sort, which is one of the permutations the
  partial-partition contract of argpartition allows (tie order is
  unspecified in the original, so a deterministic representative is used).
- The sentence-transformers encoder is an external dependency; `search`
  therefore takes the encoding function as an explicit argument standing for
  `self.encode_query`.
- Errors are the constructors of `VErr`: `config` for
  DriveVectorStoreConfigError, `notAvailable` for DriveVectorStoreNotAvailable,
  `generic` for any other runtime error (for example a numpy shape error).
-/

namespace DriveVector

/-- JSON values as produced by json.loads: null, booleans, numbers (modelled
as rationals), strings, arrays and objects (association lists; keys are
assumed unique, as json.loads keeps one binding per key). -/
inductive Json where
  | null : Json
  | bool (b : Bool) : Json
  | num (q : ℚ) : Json
  | str (s : String) : Json
  | arr (elems : List Json) : Json
  | obj (fields : List (String × Json)) : Json

/-- Python truthiness of a JSON value: None, False, 0, empty string, empty
list and empty dict are falsy, everything else is truthy. -/
def truthy : Json → Bool
  | .null => false
  | .bool b => b
  | .num q => decide (q ≠ 0)
  | .str s => !s.isEmpty
  | .arr l => !l.isEmpty
  | .obj l => !l.isEmpty

/-- Model of dict.get(key): the value bound to the key, or null (Python None)
when the key is absent.  With duplicate keys the last binding wins, as in
json.loads. -/
def jget (fields : List (String × Json)) (key : String) : Json :=
  fields.foldl (fun acc p => if p.1 = key then p.2 else acc) Json.null

/-- Model of the Python expression a or b: a if a is truthy, else b. -/
def pyOr (a b : Json) : Json :=
  if truthy a then a else b

/-- One line of the documents artifact: blank after stripping, not valid
JSON, or a JSON object line (the only shape the loader reads fields from). -/
inductive DocLine where
  | blank : DocLine
  | malformed : DocLine
  | objLine (fields : List (String × Json)) : DocLine

/-- Text extract taken from one line of the documents file, mirroring
_load_records: blank and malformed lines yield None; an object line yields
obj.get("text_extract") or obj.get("text") or obj.get("content") or
obj.get("body") under Python or-semantics. -/
def lineExtract : DocLine → Json
  | .blank => Json.null
  | .malformed => Json.null
  | .objLine fields =>
      pyOr (pyOr (pyOr (jget fields "text_extract") (jget fields "text"))
        (jget fields "content")) (jget fields "body")

/-- Error kinds of the vector store module: DriveVectorStoreConfigError,
DriveVectorStoreNotAvailable, and any other runtime error. -/
inductive VErr where
  | config : VErr
  | notAvailable : VErr
  | generic : VErr
deriving DecidableEq

/-- One document entry of the store, mirroring the DriveVectorRecord
dataclass.  The text extract is kept as a JSON value because the chain of
or-defaults can produce any JSON value, null standing for Python None. -/
structure DriveVectorRecord where
  metadata : List (String × Json)
  text_extract : Json

/-- Tests whether a JSON value is an array. -/
def isArr : Json → Bool
  | .arr _ => true
  | _ => false

/-- Elements of a JSON array, empty for any other value. -/
def arrElems : Json → List Json
  | .arr l => l
  | _ => []

/-- Metadata entries extracted from the metadata JSON root, mirroring
_load_records: a dict with a list-valued "items" key yields that list, any
other dict yields its values, a list yields itself, anything else is a
configuration error. -/
def metadataEntries : Json → Except VErr (List Json)
  | .obj fields =>
      if fields.any (fun p => p.1 == "items") && isArr (jget fields "items") then
        .ok (arrElems (jget fields "items"))
      else
        .ok (fields.map Prod.snd)
  | .arr l => .ok l
  | _ => .error VErr.config

/-- Wrap of a non-dict metadata entry as a single-key dict, mirroring the
meta = \x7b"value": meta\x7d step of _load_records. -/
def wrapMeta : Json → List (String × Json)
  | .obj fields => fields
  | j => [("value", j)]

/-- Record loading, mirroring _load_records after both files were read:
extract the metadata entries, compute one optional text extract per document
line, fail on a length mismatch, else zip the two sequences into records. -/
def load_records (meta : Json) (docs : List DocLine) :
    Except VErr (List DriveVectorRecord) :=
  match metadataEntries meta with
  | .error e => .error e
  | .ok entries =>
      let documents := docs.map lineExtract
      if entries.length ≠ documents.length then
        .error VErr.config
      else
        .ok (List.zipWith (fun m t => ⟨wrapMeta m, t⟩) entries documents)

/-- A numpy array loaded from the embeddings file: 1-D or 2-D. -/
inductive NpArray where
  | one (v : List ℝ) : NpArray
  | two (rows : List (List ℝ)) : NpArray

/-- Reshape step of _load_embeddings: a 1-D array becomes a one-row matrix. -/
def toMatrix : NpArray → List (List ℝ)
  | .one v => [v]
  | .two rows => rows

/-- Dot product of two rows (numpy truncates nothing here because the code
only applies it to equal-length operands; zipWith matches that use). -/
def dot (v w : List ℝ) : ℝ :=
  (List.zipWith (fun a b => a * b) v w).sum

/-- Row L2 norm, np.linalg.norm(row). -/
noncomputable def l2norm (v : List ℝ) : ℝ :=
  Real.sqrt (dot v v)

/-- Per-row normalization step of _load_embeddings: the norm is computed,
zero norms are replaced by 1, then the row is divided by it. -/
noncomputable def normalizeRow (v : List ℝ) : List ℝ :=
  v.map (fun x => x / (if l2norm v = 0 then 1 else l2norm v))

/-- Embedding loading, mirroring _load_embeddings after np.load: reshape a
1-D array to one row, then normalize every row. -/
noncomputable def load_embeddings (a : NpArray) : List (List ℝ) :=
  (toMatrix a).map normalizeRow

/-- The in-memory store, mirroring the fields DriveVectorStore keeps. -/
structure DriveVectorStore where
  embeddings : List (List ℝ)
  records : List DriveVectorRecord
  model_name : Option String

/-- Store construction, mirroring DriveVectorStore.__init__ after the three
files were read: load embeddings and records, then fail on a count
mismatch. -/
noncomputable def mkStore (emb : NpArray) (meta : Json) (docs : List DocLine)
    (model_name : Option String) : Except VErr DriveVectorStore :=
  match load_records meta docs with
  | .error e => .error e
  | .ok records =>
      if (load_embeddings emb).length ≠ records.length then
        .error VErr.config
      else
        .ok ⟨load_embeddings emb, records, model_name⟩

/-- Score of index i in a score list (in the code every used index is in
bounds; out-of-bounds defaults to 0). -/
def scoreAt (s : List ℝ) (i : ℕ) : ℝ :=
  s.getD i 0

/-- Comparison of two indices by their scores, ascending. -/
def leIdx (s : List ℝ) (i j : ℕ) : Prop :=
  scoreAt s i ≤ scoreAt s j

noncomputable instance (s : List ℝ) : DecidableRel (leIdx s) :=
  fun i j => Real.decidableLE (scoreAt s i) (scoreAt s j)

instance (s : List ℝ) : IsTotal ℕ (leIdx s) :=
  ⟨fun a b => le_total (scoreAt s a) (scoreAt s b)⟩

instance (s : List ℝ) : IsTrans ℕ (leIdx s) :=
  ⟨fun _ _ _ h h2 => le_trans h h2⟩

/-- Python slice l[-k:]: the whole list when k = 0 (since -0 is 0), else the
last k elements (all of them when k exceeds the length). -/
def sliceLast {α : Type} (l : List α) (k : ℕ) : List α :=
  if k = 0 then l else l.drop (l.length - k)

/-- Ascending argsort of a score list: the index range sorted by score.
Models np.argsort (and is also a valid outcome of np.argpartition, whose
contract only constrains positions around the kth element). -/
noncomputable def argsortAsc (s : List ℝ) : List ℕ :=
  List.insertionSort (leIdx s) (List.range s.length)

/-- Top-K index selection of search: when top_k is below the score count,
argpartition ascending, keep the slice [-top_k:], argsort that subset and
reverse; otherwise argsort everything and reverse. -/
noncomputable def selectTopK (s : List ℝ) (k : ℕ) : List ℕ :=
  if k < s.length then
    (List.insertionSort (leIdx s) (sliceLast (argsortAsc s) k)).reverse
  else
    (argsortAsc s).reverse

/-- Similarity scores: the matrix-vector product embeddings @ vector. -/
def searchScores (st : DriveVectorStore) (vector : List ℝ) : List ℝ :=
  st.embeddings.map (fun row => dot row vector)

/-- Unit normalization of a supplied query embedding, vector / norm(vector),
performed after the zero-norm check of search. -/
noncomputable def normalizeQuery (v : List ℝ) : List ℝ :=
  v.map (fun x => x / l2norm v)

/-- Query vector resolution at the top of search: a supplied embedding must
be 1-D and must have non-zero norm, and is then normalized; otherwise the
query string must be non-empty (Python falsiness covers None and "") and is
passed to the encoder. -/
noncomputable def queryVector (encode : String → Except VErr (List ℝ))
    (query : Option String) (query_embedding : Option NpArray) :
    Except VErr (List ℝ) :=
  match query_embedding with
  | some a =>
      match a with
      | .two _ => .error VErr.config
      | .one v =>
          if l2norm v = 0 then
            .error VErr.config
          else
            .ok (normalizeQuery v)
  | none =>
      match query with
      | none => .error VErr.config
      | some q => if q.isEmpty then .error VErr.config else encode q

/-- Record fallback for an out-of-bounds index; never reached on stores whose
record count matches the embedding count. -/
def defaultRecord : DriveVectorRecord :=
  ⟨[], Json.null⟩

/-- Result assembly of search: the selected indices turned into
(score, record) pairs in selection order. -/
noncomputable def resultsFor (st : DriveVectorStore) (scores : List ℝ)
    (k : ℕ) : List (ℝ × DriveVectorRecord) :=
  (selectTopK scores k).map
    (fun i => (scoreAt scores i, st.records.getD i defaultRecord))

/-- The search operation, mirroring DriveVectorStore.search: resolve the
query vector, compute scores as the matrix-vector product (a shape mismatch
is a generic numpy error, not a configuration error), select the top-K
indices and return (score, record) pairs. -/
noncomputable def search (st : DriveVectorStore)
    (encode : String → Except VErr (List ℝ)) (query : Option String)
    (query_embedding : Option NpArray) (top_k : ℕ) :
    Except VErr (List (ℝ × DriveVectorRecord)) :=
  match queryVector encode query query_embedding with
  | .error e => .error e
  | .ok vector =>
      if st.embeddings.all (fun row => row.length == vector.length) then
        .ok (resultsFor st (searchScores st vector) top_k)
      else
        .error VErr.generic

/-- Modelled from the spec: the drive_vector_* configuration options read by
get_drive_vector_store and main.py are not declared in the Settings class of
src/app/settings.py; the spec lists a boolean enabling the feature, three
file paths (embeddings, metadata, documents artifacts), an optional model
name for on-demand query encoding, and a default top-K used when the caller
does not specify one. -/
structure Settings where
  drive_vector_enabled : Bool
  drive_vector_embeddings_path : Option String
  drive_vector_metadata_path : Option String
  drive_vector_documents_path : Option String
  drive_vector_model_name : Option String
  drive_vector_default_k : ℕ

/-- Filesystem abstraction: what np.load, json.load and line iteration would
produce at a path, or none when the path does not exist. -/
structure FS where
  npy : String → Option NpArray
  jsonFile : String → Option Json
  jsonl : String → Option (List DocLine)

/-- Python falsiness of an optional path: None or the empty string. -/
def missingPath : Option String → Bool
  | none => true
  | some s => s.isEmpty

/-- Store construction from the filesystem, mirroring the existence checks
and loads of DriveVectorStore.__init__.  The second component records which
paths were touched, in order. -/
noncomputable def initStore (fs : FS) (ep mp dp : String)
    (mn : Option String) : Except VErr DriveVectorStore × List String :=
  match fs.npy ep with
  | none => (.error VErr.config, [ep])
  | some emb =>
      match fs.jsonFile mp with
      | none => (.error VErr.config, [ep, mp])
      | some meta =>
          match fs.jsonl dp with
          | none => (.error VErr.config, [ep, mp, dp])
          | some docs => (mkStore emb meta docs mn, [ep, mp, dp])

/-- The singleton accessor, mirroring get_drive_vector_store with the module
global made explicit: the cache is passed in and the possibly updated cache
is returned, together with the list of filesystem paths touched.  A disabled
feature fails before anything else; a cached store is returned as is; missing
path configuration is a configuration error; a construction failure leaves
the cache empty. -/
noncomputable def get_drive_vector_store (s : Settings) (fs : FS)
    (cache : Option DriveVectorStore) :
    Except VErr DriveVectorStore × Option DriveVectorStore × List String :=
  if s.drive_vector_enabled then
    match cache with
    | some st => (.ok st, some st, [])
    | none =>
        if missingPath s.drive_vector_embeddings_path ||
            missingPath s.drive_vector_metadata_path ||
            missingPath s.drive_vector_documents_path then
          (.error VErr.config, none, [])
        else
          match initStore fs (s.drive_vector_embeddings_path.getD "")
              (s.drive_vector_metadata_path.getD "")
              (s.drive_vector_documents_path.getD "")
              s.drive_vector_model_name with
          | (.ok st, touched) => (.ok st, some st, touched)
          | (.error e, touched) => (.error e, none, touched)
  else
    (.error VErr.notAvailable, cache, [])

/-! ### Spec-side reading of the text-extract selection (claim C10) -/

/-- Spec reading of the extract selection stated by claim C10: the first of
the four recognized fields whose value is truthy, and None when none of them
is truthy. -/
def specExtract (fields : List (String × Json)) : Json :=
  if truthy (jget fields "text_extract") then jget fields "text_extract"
  else if truthy (jget fields "text") then jget fields "text"
  else if truthy (jget fields "content") then jget fields "content"
  else if truthy (jget fields "body") then jget fields "body"
  else Json.null

/-- Amended reading of the extract selection: the first truthy value among
the four recognized fields, and otherwise the value of the body field itself
(whatever it is, possibly falsy, for example the empty string; None only
when body is absent or null). -/
def specExtractAmended (fields : List (String × Json)) : Json :=
  if truthy (jget fields "text_extract") then jget fields "text_extract"
  else if truthy (jget fields "text") then jget fields "text"
  else if truthy (jget fields "content") then jget fields "content"
  else jget fields "body"

/-! ### Specification-side notions used by the theorems -/

/-- A brute-force top-K set of indices for a score list: k distinct in-range
indices every one of which scores at least as high as every in-range index
left out. -/
def isTopKSet (s : List ℝ) (k : ℕ) (sel : List ℕ) : Prop :=
  sel.length = k ∧ sel.Nodup ∧ (∀ i ∈ sel, i < s.length) ∧
    ∀ i ∈ sel, ∀ j, j < s.length → j ∉ sel → scoreAt s j ≤ scoreAt s i

/-- Number of indices whose score strictly beats the score of index i; the
brute-force rank used to characterize the true top-K. -/
noncomputable def rank (s : List ℝ) (i : ℕ) : ℕ :=
  ((Finset.range s.length).filter (fun j => scoreAt s i < scoreAt s j)).card

/-- The true top-K as a set, by brute-force comparison: the in-range indices
beaten by fewer than k others.  With pairwise distinct scores this is the
unique top-K set. -/
noncomputable def trueTopK (s : List ℝ) (k : ℕ) : Finset ℕ :=
  (Finset.range s.length).filter (fun i => rank s i < k)

/-! ### Concrete artifacts used by witnesses and the concrete scenario -/

/-- Settings used by the cache witness: feature enabled with three paths. -/
def c6Settings : Settings :=
  ⟨true, some "e", some "m", some "d", none, 5⟩

/-- Filesystem used by the cache witness: every path resolves to one small
valid artifact. -/
noncomputable def c6FS : FS :=
  ⟨fun _ => some (NpArray.two [[1, 0]]),
    fun _ => some (Json.arr [Json.null]),
    fun _ => some [DocLine.blank]⟩

/-- The store the cache witness constructs. -/
noncomputable def c6Store : DriveVectorStore :=
  ⟨load_embeddings (NpArray.two [[1, 0]]), [⟨[("value", Json.null)], Json.null⟩], none⟩

/-- Metadata artifact of the concrete scenario of claim C8: three one-key
objects. -/
def c8meta : Json :=
  Json.arr [Json.obj [("id", Json.str "a")], Json.obj [("id", Json.str "b")],
    Json.obj [("id", Json.str "c")]]

/-- Documents artifact of the concrete scenario: three blank lines. -/
def c8docs : List DocLine :=
  [DocLine.blank, DocLine.blank, DocLine.blank]

/-- The records of the concrete scenario. -/
def c8recs : List DriveVectorRecord :=
  [⟨[("id", Json.str "a")], Json.null⟩, ⟨[("id", Json.str "b")], Json.null⟩,
    ⟨[("id", Json.str "c")], Json.null⟩]

/-- Embeddings artifact of the concrete scenario. -/
noncomputable def c8emb : NpArray :=
  NpArray.two [[1, 0], [0, 1], [0.6, 0.8]]

/-- The concrete store of claim C8: the three unit rows with the three
records. -/
noncomputable def c8store : DriveVectorStore :=
  ⟨[[1, 0], [0, 1], [0.6, 0.8]], c8recs, none⟩

/-! ### Proofs -/

theorem truthy_pyOr (a b : Json) : truthy (pyOr a b) = (truthy a || truthy b) := by
  unfold pyOr
  by_cases h : truthy a <;> simp [h]

/-- C10 counterexample: a document line with text_extract and body both the
empty string.  Every recognized field is falsy, so the claim as stated says
None is stored, but the or-chain of the code stores the empty string (the
value of the last field) instead. -/
theorem c10_counterexample :
    lineExtract (DocLine.objLine [("text_extract", Json.str ""), ("body", Json.str "")]) ≠
      specExtract [("text_extract", Json.str ""), ("body", Json.str "")] :=
  fun h => Json.noConfusion h

/-- C10 (amended): the record loader stores the first truthy value among the
fields text_extract, text, content, body; when none of the four values is
truthy it stores the value of the body lookup itself, which is the empty
string rather than None when the body field holds the empty string. -/
theorem c10_extract_first_truthy (fields : List (String × Json)) :
    lineExtract (DocLine.objLine fields) = specExtractAmended fields := by
  unfold lineExtract specExtractAmended
  by_cases h1 : truthy (jget fields "text_extract") <;>
    by_cases h2 : truthy (jget fields "text") <;>
      by_cases h3 : truthy (jget fields "content") <;>
        simp [pyOr, truthy_pyOr, h1, h2, h3]

/-- C5: with the feature flag disabled, the accessor fails at once with the
not-available error, touches no filesystem path, and leaves the cache as it
was.  The recognized configuration options are the fields of Settings. -/
theorem c5_disabled_accessor_fails (s : Settings) (fs : FS)
    (cache : Option DriveVectorStore) (h : s.drive_vector_enabled = false) :
    get_drive_vector_store s fs cache = (.error VErr.notAvailable, cache, []) := by
  simp [get_drive_vector_store, h]

theorem c5_witness :
    (Settings.mk false none none none none 5).drive_vector_enabled = false ∧
    get_drive_vector_store (Settings.mk false none none none none 5)
        (FS.mk (fun _ => none) (fun _ => none) (fun _ => none)) none =
      (.error VErr.notAvailable, none, []) :=
  ⟨rfl, c5_disabled_accessor_fails _ _ _ rfl⟩

/-- C3: with the records loading successfully, a mismatch between the
embedding row count and the record count makes construction fail with a
configuration error, and every successfully constructed store has as many
records as embedding rows. -/
theorem c3_count_mismatch (emb : NpArray) (meta : Json) (docs : List DocLine)
    (mn : Option String) (recs : List DriveVectorRecord)
    (h : load_records meta docs = .ok recs) :
    ((load_embeddings emb).length ≠ recs.length →
      mkStore emb meta docs mn = .error VErr.config) ∧
    (∀ st, mkStore emb meta docs mn = .ok st →
      st.records.length = st.embeddings.length) := by
  constructor
  · intro hne
    simp [mkStore, h, hne]
  · intro st hst
    unfold mkStore at hst
    rw [h] at hst
    dsimp only at hst
    by_cases hlen : (load_embeddings emb).length ≠ recs.length
    · rw [if_pos hlen] at hst
      exact Except.noConfusion hst
    · rw [if_neg hlen] at hst
      cases hst
      exact (not_ne_iff.mp hlen).symm

theorem c3_witness :
    mkStore (NpArray.two [[1], [1], [1]]) (Json.arr [Json.null, Json.null])
      [DocLine.blank, DocLine.blank] none = .error VErr.config :=
  (c3_count_mismatch (NpArray.two [[1], [1], [1]])
      (Json.arr [Json.null, Json.null]) [DocLine.blank, DocLine.blank] none
      [⟨[("value", Json.null)], Json.null⟩, ⟨[("value", Json.null)], Json.null⟩]
      rfl).1 (by simp [load_embeddings, toMatrix])

theorem dot_cons (x y : ℝ) (v w : List ℝ) :
    dot (x :: v) (y :: w) = x * y + dot v w := by
  simp [dot]

theorem dot_self_nonneg (v : List ℝ) : 0 ≤ dot v v := by
  induction v with
  | nil => simp [dot]
  | cons x t ih =>
      rw [dot_cons]
      exact add_nonneg (mul_self_nonneg x) ih

theorem dot_self_eq_zero_iff (v : List ℝ) : dot v v = 0 ↔ ∀ x ∈ v, x = 0 := by
  induction v with
  | nil => simp [dot]
  | cons x t ih =>
      rw [dot_cons]
      rw [add_eq_zero_iff_of_nonneg (mul_self_nonneg x) (dot_self_nonneg t)]
      rw [mul_self_eq_zero, ih]
      simp

theorem l2norm_eq_zero_iff (v : List ℝ) : l2norm v = 0 ↔ ∀ x ∈ v, x = 0 := by
  unfold l2norm
  rw [Real.sqrt_eq_zero (dot_self_nonneg v), dot_self_eq_zero_iff]

theorem dot_map_div (v : List ℝ) (c : ℝ) :
    dot (v.map (fun x => x / c)) (v.map (fun x => x / c)) = dot v v / (c * c) := by
  induction v with
  | nil => simp [dot]
  | cons x t ih =>
      rw [List.map_cons, dot_cons, dot_cons, ih, div_mul_div_comm, div_add_div_same]

theorem l2norm_normalizeRow (v : List ℝ) (hv : l2norm v ≠ 0) :
    l2norm (normalizeRow v) = 1 := by
  unfold normalizeRow
  simp only [if_neg hv]
  unfold l2norm at hv ⊢
  rw [dot_map_div, Real.sqrt_div (dot_self_nonneg v),
    Real.sqrt_mul_self (Real.sqrt_nonneg (dot v v))]
  exact div_self hv

theorem normalizeRow_zero (v : List ℝ) (hv : ∀ x ∈ v, x = 0) :
    normalizeRow v = v := by
  unfold normalizeRow
  simp only [if_pos ((l2norm_eq_zero_iff v).mpr hv)]
  simp

/-- C2: a row of the loaded embedding matrix coming from an input row with
some non-zero entry has L2 norm exactly 1 (the floating-point-tolerance
statement made exact over ℝ), and a row coming from an all-zero input row is
left untouched as the zero vector, because the zero norm is replaced by 1
before dividing. -/
theorem c2_row_normalization (a : NpArray) (v : List ℝ) (hv : v ∈ toMatrix a) :
    normalizeRow v ∈ load_embeddings a ∧
    ((∃ x ∈ v, x ≠ 0) → l2norm (normalizeRow v) = 1) ∧
    ((∀ x ∈ v, x = 0) → normalizeRow v = v) := by
  refine ⟨?_, fun hnz => ?_, fun hz => normalizeRow_zero v hz⟩
  · unfold load_embeddings
    exact List.mem_map_of_mem normalizeRow hv
  · apply l2norm_normalizeRow
    rw [ne_eq, l2norm_eq_zero_iff]
    push_neg
    exact hnz

theorem c2_witness :
    [(3 : ℝ), 4] ∈ toMatrix (NpArray.two [[3, 4], [0, 0]]) ∧
    (∃ x ∈ [(3 : ℝ), 4], x ≠ 0) ∧
    l2norm (normalizeRow [(3 : ℝ), 4]) = 1 :=
  ⟨by simp [toMatrix], ⟨3, by simp, by norm_num⟩,
    (c2_row_normalization (NpArray.two [[3, 4], [0, 0]]) [3, 4]
      (by simp [toMatrix])).2.1 ⟨3, by simp, by norm_num⟩⟩

theorem dot_map_mul (c : ℝ) (v : List ℝ) :
    dot (v.map (fun x => c * x)) (v.map (fun x => c * x)) = c * c * dot v v := by
  induction v with
  | nil => simp [dot]
  | cons x t ih =>
      rw [List.map_cons, dot_cons, dot_cons, ih]
      ring

theorem l2norm_map_mul (c : ℝ) (v : List ℝ) (hc : 0 ≤ c) :
    l2norm (v.map (fun x => c * x)) = c * l2norm v := by
  unfold l2norm
  rw [dot_map_mul, Real.sqrt_mul (mul_self_nonneg c), Real.sqrt_mul_self hc]

theorem normalized_map_mul (c : ℝ) (v : List ℝ) (hc : 0 < c) :
    normalizeQuery (v.map (fun y => c * y)) = normalizeQuery v := by
  unfold normalizeQuery
  rw [l2norm_map_mul c v hc.le, List.map_map]
  apply List.map_congr_left
  intro x _
  exact mul_div_mul_left x (l2norm v) (ne_of_gt hc)

/-- C7: scaling a valid 1-D non-zero query embedding by any positive scalar
leaves the whole search result unchanged, scores included, because the
supplied vector is normalized to unit length before the similarity
computation. -/
theorem c7_scale_invariance (st : DriveVectorStore)
    (encode : String → Except VErr (List ℝ)) (query : Option String)
    (c : ℝ) (v : List ℝ) (k : ℕ) (hc : 0 < c) (hv : l2norm v ≠ 0) :
    search st encode query (some (NpArray.one (v.map (fun y => c * y)))) k =
      search st encode query (some (NpArray.one v)) k := by
  have hcv0 : l2norm (v.map (fun y => c * y)) ≠ 0 := by
    rw [l2norm_map_mul c v hc.le]
    exact mul_ne_zero (ne_of_gt hc) hv
  have hqv : queryVector encode query (some (NpArray.one (v.map (fun y => c * y)))) =
      queryVector encode query (some (NpArray.one v)) := by
    unfold queryVector
    dsimp only
    rw [if_neg hcv0, if_neg hv]
    exact congrArg Except.ok (normalized_map_mul c v hc)
  unfold search
  rw [hqv]

theorem c7_witness :
    (0 : ℝ) < 2 ∧ l2norm [(3 : ℝ), 4] ≠ 0 ∧
    search ⟨[[1, 0]], [defaultRecord], none⟩ (fun _ => .error VErr.config) none
        (some (NpArray.one ([(3 : ℝ), 4].map (fun y => 2 * y)))) 1 =
      search ⟨[[1, 0]], [defaultRecord], none⟩ (fun _ => .error VErr.config) none
        (some (NpArray.one [(3 : ℝ), 4])) 1 := by
  have h34 : l2norm [(3 : ℝ), 4] ≠ 0 := by
    have hd : dot [(3 : ℝ), 4] [(3 : ℝ), 4] = 25 := by
      simp [dot]
      norm_num
    unfold l2norm
    rw [hd]
    exact Real.sqrt_ne_zero'.mpr (by norm_num)
  exact ⟨by norm_num, h34,
    c7_scale_invariance ⟨[[1, 0]], [defaultRecord], none⟩ (fun _ => .error VErr.config)
      none 2 [3, 4] 1 (by norm_num) h34⟩

theorem search_with_vector_not_config (st : DriveVectorStore)
    (encode : String → Except VErr (List ℝ)) (query : Option String)
    (qe : Option NpArray) (k : ℕ) (w : List ℝ)
    (hq : queryVector encode query qe = .ok w) :
    search st encode query qe k ≠ .error VErr.config := by
  unfold search
  rw [hq]
  dsimp only
  split
  · simp
  · simp

/-- C4: with a usable encoder configured, search fails with a configuration
error exactly when its inputs are unusable: a supplied query embedding that
is not 1-D or has norm exactly zero, or no query embedding together with an
absent or empty query string. -/
theorem c4_config_error_iff (st : DriveVectorStore)
    (encode : String → Except VErr (List ℝ)) (query : Option String)
    (query_embedding : Option NpArray) (top_k : ℕ)
    (henc : ∀ q, ∃ w, encode q = .ok w) :
    search st encode query query_embedding top_k = .error VErr.config ↔
      ((∃ m, query_embedding = some (NpArray.two m)) ∨
        (∃ v, query_embedding = some (NpArray.one v) ∧ l2norm v = 0) ∨
        (query_embedding = none ∧ (query = none ∨ query = some ""))) := by
  constructor
  · intro h
    cases query_embedding with
    | some a =>
        cases a with
        | two m => exact Or.inl ⟨m, rfl⟩
        | one v =>
            by_cases hv : l2norm v = 0
            · exact Or.inr (Or.inl ⟨v, rfl, hv⟩)
            · exfalso
              have hqv : queryVector encode query (some (NpArray.one v)) =
                  .ok (normalizeQuery v) := by
                unfold queryVector
                dsimp only
                rw [if_neg hv]
              exact search_with_vector_not_config st encode query
                (some (NpArray.one v)) top_k _ hqv h
    | none =>
        cases query with
        | none => exact Or.inr (Or.inr ⟨rfl, Or.inl rfl⟩)
        | some q =>
            by_cases hq : q.isEmpty
            · refine Or.inr (Or.inr ⟨rfl, Or.inr ?_⟩)
              rw [(String.isEmpty_iff q).mp hq]
            · exfalso
              obtain ⟨w, hw⟩ := henc q
              have hqv : queryVector encode (some q) none = .ok w := by
                unfold queryVector
                dsimp only
                rw [if_neg hq, hw]
              exact search_with_vector_not_config st encode (some q) none top_k w hqv h
  · rintro (⟨m, rfl⟩ | ⟨v, rfl, hv⟩ | ⟨rfl, rfl | rfl⟩)
    · rfl
    · unfold search queryVector
      dsimp only
      rw [if_pos hv]
    · rfl
    · rfl

theorem c4_witness :
    (∀ q, ∃ w, (fun _ : String => (Except.ok [(1 : ℝ)] : Except VErr (List ℝ))) q = .ok w) ∧
    (search ⟨[[1]], [defaultRecord], none⟩ (fun _ => .ok [(1 : ℝ)]) none
        (some (NpArray.one [0])) 3 = .error VErr.config ↔
      ((∃ m, some (NpArray.one [(0 : ℝ)]) = some (NpArray.two m)) ∨
        (∃ v, some (NpArray.one [(0 : ℝ)]) = some (NpArray.one v) ∧ l2norm v = 0) ∨
        (some (NpArray.one [(0 : ℝ)]) = none ∧
          ((none : Option String) = none ∨ (none : Option String) = some "")))) :=
  ⟨fun _ => ⟨[1], rfl⟩,
    c4_config_error_iff ⟨[[1]], [defaultRecord], none⟩ (fun _ => .ok [(1 : ℝ)]) none
      (some (NpArray.one [0])) 3 (fun _ => ⟨[1], rfl⟩)⟩

/-- C6: the accessor caches a store only after a successful construction.
From an empty cache, a successful call caches exactly the returned store and
a second call returns that same instance while touching no filesystem path;
a failed call (under any settings and filesystem) leaves the cache empty, so
the next call starts construction from scratch. -/
theorem c6_singleton_cache (s s2 : Settings) (fs fs2 : FS)
    (st : DriveVectorStore) (c : Option DriveVectorStore) (t : List String)
    (e : VErr) (c2 : Option DriveVectorStore) (t2 : List String)
    (h1 : get_drive_vector_store s fs none = (.ok st, c, t))
    (h2 : get_drive_vector_store s2 fs2 none = (.error e, c2, t2)) :
    c = some st ∧
    get_drive_vector_store s fs (some st) = (.ok st, some st, []) ∧
    c2 = none := by
  have hen : s.drive_vector_enabled = true := by
    cases hsen : s.drive_vector_enabled
    · unfold get_drive_vector_store at h1
      rw [hsen] at h1
      simp at h1
    · rfl
  unfold get_drive_vector_store at h1
  rw [if_pos hen] at h1
  dsimp only at h1
  have hc : c = some st := by
    split at h1
    · injection h1 with ha hbc
      exact Except.noConfusion ha
    · split at h1
      · injection h1 with ha hbc
        injection hbc with hb hc
        injection ha with ha
        rw [← hb, ha]
      · injection h1 with ha hbc
        exact Except.noConfusion ha
  refine ⟨hc, ?_, ?_⟩
  · unfold get_drive_vector_store
    rw [if_pos hen]
  · cases hsen2 : s2.drive_vector_enabled
    · unfold get_drive_vector_store at h2
      rw [hsen2] at h2
      simp only [Bool.false_eq_true, if_false] at h2
      injection h2 with ha hbc
      injection hbc with hb hc2
      exact hb.symm
    · unfold get_drive_vector_store at h2
      rw [if_pos hsen2] at h2
      dsimp only at h2
      split at h2
      · injection h2 with ha hbc
        injection hbc with hb hc2
        exact hb.symm
      · split at h2
        · injection h2 with ha hbc
          exact Except.noConfusion ha
        · injection h2 with ha hbc
          injection hbc with hb hc2
          exact hb.symm

theorem c6_witness :
    get_drive_vector_store c6Settings c6FS none =
      (.ok c6Store, some c6Store, ["e", "m", "d"]) ∧
    get_drive_vector_store ⟨true, none, none, none, none, 5⟩ c6FS none =
      (.error VErr.config, none, []) ∧
    (some c6Store = some c6Store ∧
      get_drive_vector_store c6Settings c6FS (some c6Store) =
        (.ok c6Store, some c6Store, []) ∧
      (none : Option DriveVectorStore) = none) :=
  ⟨rfl, rfl,
    c6_singleton_cache c6Settings ⟨true, none, none, none, none, 5⟩ c6FS c6FS
      c6Store (some c6Store) ["e", "m", "d"] VErr.config none [] rfl rfl⟩

/-! ### Properties of the top-K index selection -/

theorem argsortAsc_perm (s : List ℝ) :
    List.Perm (argsortAsc s) (List.range s.length) :=
  List.perm_insertionSort (leIdx s) (List.range s.length)

theorem argsortAsc_sorted (s : List ℝ) : List.Sorted (leIdx s) (argsortAsc s) :=
  List.sorted_insertionSort (leIdx s) (List.range s.length)

theorem argsortAsc_length (s : List ℝ) : (argsortAsc s).length = s.length := by
  rw [(argsortAsc_perm s).length_eq, List.length_range]

theorem argsortAsc_nodup (s : List ℝ) : (argsortAsc s).Nodup :=
  ((argsortAsc_perm s).nodup_iff).mpr (List.nodup_range s.length)

theorem mem_argsortAsc {s : List ℝ} {i : ℕ} : i ∈ argsortAsc s ↔ i < s.length := by
  rw [(argsortAsc_perm s).mem_iff, List.mem_range]

theorem selectTopK_eq_full (s : List ℝ) (k : ℕ) (h : s.length ≤ k ∨ k = 0) :
    selectTopK s k = (argsortAsc s).reverse := by
  unfold selectTopK
  rcases h with h | h
  · rw [if_neg (not_lt.mpr h)]
  · subst h
    by_cases hl : 0 < s.length
    · rw [if_pos hl]
      unfold sliceLast
      rw [if_pos rfl, (argsortAsc_sorted s).insertionSort_eq]
    · rw [if_neg hl]

theorem selectTopK_eq_drop (s : List ℝ) (k : ℕ) (h0 : k ≠ 0) (hk : k < s.length) :
    selectTopK s k = ((argsortAsc s).drop (s.length - k)).reverse := by
  unfold selectTopK
  rw [if_pos hk]
  unfold sliceLast
  rw [if_neg h0, argsortAsc_length]
  congr 1
  exact List.Sorted.insertionSort_eq
    ((argsortAsc_sorted s).sublist (List.drop_sublist (s.length - k) (argsortAsc s)))

theorem argsortAsc_take_drop_le (s : List ℝ) (n : ℕ) :
    ∀ j ∈ (argsortAsc s).take n, ∀ i ∈ (argsortAsc s).drop n,
      scoreAt s j ≤ scoreAt s i := by
  have h := argsortAsc_sorted s
  rw [← List.take_append_drop n (argsortAsc s)] at h
  exact (List.pairwise_append.mp h).2.2

theorem scoreAt_ne (s : List ℝ) (hs : s.Nodup) {i j : ℕ}
    (hi : i < s.length) (hj : j < s.length) (hij : i ≠ j) :
    scoreAt s i ≠ scoreAt s j := by
  unfold scoreAt
  rw [List.getD_eq_getElem s 0 hi, List.getD_eq_getElem s 0 hj]
  intro h
  have := List.nodup_iff_injective_getElem.mp hs
    (show (fun m : Fin s.length => s[m.1]) ⟨i, hi⟩ =
      (fun m : Fin s.length => s[m.1]) ⟨j, hj⟩ from h)
  exact hij (congrArg Fin.val this)

theorem isTopKSet_eq_trueTopK (s : List ℝ) (k : ℕ) (hs : s.Nodup)
    (sel : List ℕ) (h : isTopKSet s k sel) : sel.toFinset = trueTopK s k := by
  obtain ⟨hlen, hnd, hbound, hdom⟩ := h
  have hcard : sel.toFinset.card = k := by
    rw [List.toFinset_card_of_nodup hnd, hlen]
  apply Finset.ext
  intro i
  simp only [List.mem_toFinset, trueTopK, Finset.mem_filter, Finset.mem_range]
  constructor
  · intro hi
    have hkpos : 0 < k := hlen ▸ List.length_pos_of_mem hi
    refine ⟨hbound i hi, ?_⟩
    have hsub : (Finset.range s.length).filter
        (fun j => scoreAt s i < scoreAt s j) ⊆ sel.toFinset.erase i := by
      intro j hj
      rw [Finset.mem_filter, Finset.mem_range] at hj
      obtain ⟨hjN, hjgt⟩ := hj
      rw [Finset.mem_erase, List.mem_toFinset]
      refine ⟨fun hji => ?_, ?_⟩
      · rw [hji] at hjgt
        exact lt_irrefl _ hjgt
      · by_contra hjn
        exact absurd (hdom i hi j hjN hjn) (not_le.mpr hjgt)
    have hle := Finset.card_le_card hsub
    rw [Finset.card_erase_of_mem (List.mem_toFinset.mpr hi), hcard] at hle
    unfold rank
    omega
  · rintro ⟨hiN, hrank⟩
    by_contra hin
    have hsub : sel.toFinset ⊆ (Finset.range s.length).filter
        (fun j => scoreAt s i < scoreAt s j) := by
      intro j hj
      rw [List.mem_toFinset] at hj
      rw [Finset.mem_filter, Finset.mem_range]
      refine ⟨hbound j hj, ?_⟩
      have hle : scoreAt s i ≤ scoreAt s j := hdom j hj i hiN hin
      have hne : scoreAt s i ≠ scoreAt s j :=
        scoreAt_ne s hs hiN (hbound j hj) (fun he => hin (he ▸ hj))
      exact lt_of_le_of_ne hle hne
    have hge := Finset.card_le_card hsub
    rw [hcard] at hge
    unfold rank at hrank
    omega

theorem selectTopK_isTopKSet (s : List ℝ) (k : ℕ) (h0 : 0 < k)
    (hk : k ≤ s.length) : isTopKSet s k (selectTopK s k) := by
  rcases lt_or_eq_of_le hk with hlt | heq
  · rw [selectTopK_eq_drop s k (Nat.pos_iff_ne_zero.mp h0) hlt]
    refine ⟨?_, ?_, ?_, ?_⟩
    · rw [List.length_reverse, List.length_drop, argsortAsc_length]
      omega
    · exact List.nodup_reverse.mpr
        ((argsortAsc_nodup s).sublist (List.drop_sublist _ _))
    · intro i hi
      rw [List.mem_reverse] at hi
      exact mem_argsortAsc.mp (List.mem_of_mem_drop hi)
    · intro i hi j hjN hjn
      rw [List.mem_reverse] at hi hjn
      have hjA : j ∈ argsortAsc s := mem_argsortAsc.mpr hjN
      have hsplit : j ∈ (argsortAsc s).take (s.length - k) ∨
          j ∈ (argsortAsc s).drop (s.length - k) := by
        rw [← List.mem_append, List.take_append_drop]
        exact hjA
      rcases hsplit with hjt | hjd
      · exact argsortAsc_take_drop_le s (s.length - k) j hjt i hi
      · exact absurd hjd hjn
  · rw [selectTopK_eq_full s k (Or.inl heq.ge)]
    refine ⟨?_, ?_, ?_, ?_⟩
    · rw [List.length_reverse, argsortAsc_length, heq]
    · exact List.nodup_reverse.mpr (argsortAsc_nodup s)
    · intro i hi
      rw [List.mem_reverse] at hi
      exact mem_argsortAsc.mp hi
    · intro i hi j hjN hjn
      rw [List.mem_reverse] at hjn
      exact absurd (mem_argsortAsc.mpr hjN) hjn

theorem selectTopK_length (s : List ℝ) (k : ℕ) (hk : 0 < k) :
    (selectTopK s k).length = min k s.length := by
  by_cases h : k < s.length
  · rw [selectTopK_eq_drop s k (Nat.pos_iff_ne_zero.mp hk) h]
    rw [List.length_reverse, List.length_drop, argsortAsc_length]
    omega
  · rw [selectTopK_eq_full s k (Or.inl (not_lt.mp h))]
    rw [List.length_reverse, argsortAsc_length]
    omega

theorem sorted_desc_of_reverse_sorted (s : List ℝ) (L : List ℕ)
    (hL : List.Sorted (leIdx s) L) :
    List.Sorted (fun a b : ℝ => b ≤ a) (L.reverse.map (scoreAt s)) := by
  rw [List.Sorted, List.pairwise_map, List.pairwise_reverse]
  exact hL

theorem selectTopK_sorted (s : List ℝ) (k : ℕ) :
    List.Sorted (fun a b : ℝ => b ≤ a) ((selectTopK s k).map (scoreAt s)) := by
  unfold selectTopK
  split
  · exact sorted_desc_of_reverse_sorted s _
      (List.sorted_insertionSort (leIdx s) _)
  · exact sorted_desc_of_reverse_sorted s _ (argsortAsc_sorted s)

theorem map_getD_range {α : Type} (l : List α) (d : α) :
    (List.range l.length).map (fun i => l.getD i d) = l := by
  induction l with
  | nil => rfl
  | cons a t ih =>
      rw [List.length_cons, List.range_succ_eq_map, List.map_cons, List.map_map]
      congr 1

theorem resultsFor_map_fst (st : DriveVectorStore) (scores : List ℝ) (k : ℕ) :
    (resultsFor st scores k).map Prod.fst =
      (selectTopK scores k).map (scoreAt scores) := by
  unfold resultsFor
  rw [List.map_map]
  rfl

theorem resultsFor_snd_perm (st : DriveVectorStore) (scores : List ℝ) (k : ℕ)
    (hsel : selectTopK scores k = (argsortAsc scores).reverse)
    (hlen : st.records.length = scores.length) :
    List.Perm ((resultsFor st scores k).map Prod.snd) st.records := by
  unfold resultsFor
  rw [List.map_map, hsel]
  show List.Perm ((argsortAsc scores).reverse.map
    (fun i => st.records.getD i defaultRecord)) st.records
  have hperm : List.Perm (argsortAsc scores).reverse (List.range scores.length) :=
    (List.reverse_perm (argsortAsc scores)).trans (argsortAsc_perm scores)
  have h3 := hperm.map (fun i => st.records.getD i defaultRecord)
  have h2 : (List.range scores.length).map
      (fun i => st.records.getD i defaultRecord) = st.records := by
    rw [← hlen]
    exact map_getD_range st.records defaultRecord
  rw [h2] at h3
  exact h3

theorem search_eval_ok (st : DriveVectorStore)
    (encode : String → Except VErr (List ℝ)) (query : Option String)
    (v : List ℝ) (k : ℕ) (hv : l2norm v ≠ 0)
    (hshape : ∀ row ∈ st.embeddings, row.length = v.length) :
    search st encode query (some (NpArray.one v)) k =
      .ok (resultsFor st (searchScores st (normalizeQuery v)) k) := by
  unfold search
  have hqv : queryVector encode query (some (NpArray.one v)) =
      .ok (normalizeQuery v) := by
    unfold queryVector
    dsimp only
    rw [if_neg hv]
  rw [hqv]
  dsimp only
  have hlen : (normalizeQuery v).length = v.length := by
    unfold normalizeQuery
    exact List.length_map v _
  rw [if_pos (List.all_eq_true.mpr (fun row hrow => beq_iff_eq.mpr
    ((hshape row hrow).trans hlen.symm)))]

/-- C1: on every constructed store (record count equal to embedding row
count) with a valid query embedding and 0 < top_k, search succeeds and
returns exactly min(top_k, N) (score, record) pairs in descending score
order; for top_k ≤ N the selected indices form a brute-force top-K set,
which under pairwise distinct scores equals the true top-K computed by
brute-force comparison; for top_k ≥ N all N records come back, fully
sorted. -/
theorem c1_search_topk (st : DriveVectorStore)
    (encode : String → Except VErr (List ℝ)) (query : Option String)
    (v : List ℝ) (k : ℕ)
    (hrec : st.records.length = st.embeddings.length)
    (hv : l2norm v ≠ 0)
    (hshape : ∀ row ∈ st.embeddings, row.length = v.length)
    (hk : 0 < k) :
    search st encode query (some (NpArray.one v)) k =
      .ok (resultsFor st (searchScores st (normalizeQuery v)) k) ∧
    (resultsFor st (searchScores st (normalizeQuery v)) k).length =
      min k st.embeddings.length ∧
    List.Sorted (fun a b : ℝ => b ≤ a)
      ((resultsFor st (searchScores st (normalizeQuery v)) k).map Prod.fst) ∧
    (k ≤ st.embeddings.length →
      isTopKSet (searchScores st (normalizeQuery v)) k
        (selectTopK (searchScores st (normalizeQuery v)) k)) ∧
    ((searchScores st (normalizeQuery v)).Nodup → k ≤ st.embeddings.length →
      (selectTopK (searchScores st (normalizeQuery v)) k).toFinset =
        trueTopK (searchScores st (normalizeQuery v)) k) ∧
    (st.embeddings.length ≤ k →
      List.Perm
        ((resultsFor st (searchScores st (normalizeQuery v)) k).map Prod.snd)
        st.records) := by
  have hscl : (searchScores st (normalizeQuery v)).length = st.embeddings.length :=
    List.length_map st.embeddings _
  refine ⟨search_eval_ok st encode query v k hv hshape, ?_, ?_, ?_, ?_, ?_⟩
  · unfold resultsFor
    rw [List.length_map, selectTopK_length _ _ hk, hscl]
  · rw [resultsFor_map_fst]
    exact selectTopK_sorted _ k
  · intro hkN
    exact selectTopK_isTopKSet _ k hk (hscl ▸ hkN)
  · intro hnd hkN
    exact isTopKSet_eq_trueTopK _ k hnd _ (selectTopK_isTopKSet _ k hk (hscl ▸ hkN))
  · intro hNk
    exact resultsFor_snd_perm st _ k
      (selectTopK_eq_full _ k (Or.inl (hscl ▸ hNk))) (hrec.trans hscl.symm)

theorem c1_witness :
    l2norm [(3 : ℝ), 4] ≠ 0 ∧ 0 < 1 ∧
    search ⟨[[1, 0], [0, 1]], [defaultRecord, defaultRecord], none⟩
        (fun _ => .error VErr.config) none (some (NpArray.one [3, 4])) 1 =
      .ok (resultsFor ⟨[[1, 0], [0, 1]], [defaultRecord, defaultRecord], none⟩
        (searchScores ⟨[[1, 0], [0, 1]], [defaultRecord, defaultRecord], none⟩
          (normalizeQuery [3, 4])) 1) := by
  have h34 : l2norm [(3 : ℝ), 4] ≠ 0 := by
    have hd : dot [(3 : ℝ), 4] [(3 : ℝ), 4] = 25 := by
      simp [dot]
      norm_num
    unfold l2norm
    rw [hd]
    exact Real.sqrt_ne_zero'.mpr (by norm_num)
  refine ⟨h34, by norm_num, ?_⟩
  exact (c1_search_topk ⟨[[1, 0], [0, 1]], [defaultRecord, defaultRecord], none⟩
    (fun _ => .error VErr.config) none [3, 4] 1 rfl h34
    (by intro row hrow; fin_cases hrow <;> rfl) (by norm_num)).1

/-- C9: with at least one record and a valid query embedding, top_k = 0 does
not return an empty sequence and does not fail: the slice [-0:] of the
partial-selection branch selects the entire index array, so search returns
exactly what top_k = N returns, namely all N records fully sorted
descending by score. -/
theorem c9_topk_zero (st : DriveVectorStore)
    (encode : String → Except VErr (List ℝ)) (query : Option String)
    (v : List ℝ)
    (hrec : st.records.length = st.embeddings.length)
    (hv : l2norm v ≠ 0)
    (hshape : ∀ row ∈ st.embeddings, row.length = v.length)
    (_hN : 1 ≤ st.embeddings.length) :
    search st encode query (some (NpArray.one v)) 0 =
      search st encode query (some (NpArray.one v)) st.embeddings.length ∧
    search st encode query (some (NpArray.one v)) 0 =
      .ok (resultsFor st (searchScores st (normalizeQuery v)) 0) ∧
    (resultsFor st (searchScores st (normalizeQuery v)) 0).length =
      st.embeddings.length ∧
    List.Sorted (fun a b : ℝ => b ≤ a)
      ((resultsFor st (searchScores st (normalizeQuery v)) 0).map Prod.fst) ∧
    List.Perm
      ((resultsFor st (searchScores st (normalizeQuery v)) 0).map Prod.snd)
      st.records := by
  have hscl : (searchScores st (normalizeQuery v)).length = st.embeddings.length :=
    List.length_map st.embeddings _
  have hfull0 : selectTopK (searchScores st (normalizeQuery v)) 0 =
      (argsortAsc (searchScores st (normalizeQuery v))).reverse :=
    selectTopK_eq_full _ 0 (Or.inr rfl)
  have hfullN : selectTopK (searchScores st (normalizeQuery v))
        st.embeddings.length =
      (argsortAsc (searchScores st (normalizeQuery v))).reverse :=
    selectTopK_eq_full _ st.embeddings.length (Or.inl hscl.le)
  refine ⟨?_, search_eval_ok st encode query v 0 hv hshape, ?_, ?_, ?_⟩
  · rw [search_eval_ok st encode query v 0 hv hshape,
      search_eval_ok st encode query v st.embeddings.length hv hshape]
    unfold resultsFor
    rw [hfull0, hfullN]
  · unfold resultsFor
    rw [List.length_map, hfull0, List.length_reverse, argsortAsc_length, hscl]
  · rw [resultsFor_map_fst]
    exact selectTopK_sorted _ 0
  · exact resultsFor_snd_perm st _ 0 hfull0 (hrec.trans hscl.symm)

theorem c9_witness :
    l2norm [(3 : ℝ), 4] ≠ 0 ∧
    1 ≤ ([[(1 : ℝ), 0]] : List (List ℝ)).length ∧
    search ⟨[[1, 0]], [defaultRecord], none⟩ (fun _ => .error VErr.config) none
        (some (NpArray.one [3, 4])) 0 =
      search ⟨[[1, 0]], [defaultRecord], none⟩ (fun _ => .error VErr.config) none
        (some (NpArray.one [3, 4])) 1 := by
  have h34 : l2norm [(3 : ℝ), 4] ≠ 0 := by
    have hd : dot [(3 : ℝ), 4] [(3 : ℝ), 4] = 25 := by
      simp [dot]
      norm_num
    unfold l2norm
    rw [hd]
    exact Real.sqrt_ne_zero'.mpr (by norm_num)
  refine ⟨h34, by norm_num, ?_⟩
  exact (c9_topk_zero ⟨[[1, 0]], [defaultRecord], none⟩
    (fun _ => .error VErr.config) none [3, 4] rfl h34
    (by intro row hrow; fin_cases hrow <;> rfl) (by norm_num)).1

theorem l2norm_c8_row1 : l2norm [(1 : ℝ), 0] = 1 := by
  have hd : dot [(1 : ℝ), 0] [(1 : ℝ), 0] = 1 := by
    simp [dot]
  unfold l2norm
  rw [hd, Real.sqrt_one]

theorem l2norm_c8_row2 : l2norm [(0 : ℝ), 1] = 1 := by
  have hd : dot [(0 : ℝ), 1] [(0 : ℝ), 1] = 1 := by
    simp [dot]
  unfold l2norm
  rw [hd, Real.sqrt_one]

theorem l2norm_c8_row3 : l2norm [(0.6 : ℝ), 0.8] = 1 := by
  have hd : dot [(0.6 : ℝ), 0.8] [(0.6 : ℝ), 0.8] = 1 := by
    simp [dot]
    norm_num
  unfold l2norm
  rw [hd, Real.sqrt_one]

theorem load_embeddings_c8 :
    load_embeddings c8emb = [[1, 0], [0, 1], [0.6, 0.8]] := by
  unfold load_embeddings c8emb toMatrix
  rw [List.map_cons, List.map_cons, List.map_cons, List.map_nil]
  have e1 : normalizeRow [(1 : ℝ), 0] = [1, 0] := by
    unfold normalizeRow
    simp only [l2norm_c8_row1]
    norm_num
  have e2 : normalizeRow [(0 : ℝ), 1] = [0, 1] := by
    unfold normalizeRow
    simp only [l2norm_c8_row2]
    norm_num
  have e3 : normalizeRow [(0.6 : ℝ), 0.8] = [0.6, 0.8] := by
    unfold normalizeRow
    simp only [l2norm_c8_row3]
    norm_num
  rw [e1, e2, e3]

theorem selectTopK_c8 : selectTopK [(1 : ℝ), 0, 0.6] 2 = [0, 2] := by
  norm_num [selectTopK, sliceLast, argsortAsc, leIdx, scoreAt,
    List.insertionSort, List.orderedInsert, List.range_succ, List.getD]

/-- C8: on the concrete store with embeddings [[1,0],[0,1],[0.6,0.8]] and
records a, b, c, construction succeeds with exactly those unit rows, and
search with query embedding [1,0] and top_k = 2 returns record a at score 1
first and record c at score 0.6 second. -/
theorem c8_concrete :
    mkStore c8emb c8meta c8docs none = .ok c8store ∧
    search c8store (fun _ => .error VErr.config) none
        (some (NpArray.one [1, 0])) 2 =
      .ok [((1 : ℝ), ⟨[("id", Json.str "a")], Json.null⟩),
        ((0.6 : ℝ), ⟨[("id", Json.str "c")], Json.null⟩)] := by
  have hv : l2norm [(1 : ℝ), 0] ≠ 0 := by
    rw [l2norm_c8_row1]
    exact one_ne_zero
  constructor
  · unfold mkStore
    rw [show load_records c8meta c8docs = .ok c8recs from rfl]
    dsimp only
    simp only [load_embeddings_c8]
    rw [if_neg (by norm_num [c8recs])]
    rfl
  · rw [search_eval_ok c8store (fun _ => .error VErr.config) none [1, 0] 2 hv
      (by intro row hrow; fin_cases hrow <;> rfl)]
    have hq : normalizeQuery [(1 : ℝ), 0] = [1, 0] := by
      unfold normalizeQuery
      simp only [l2norm_c8_row1]
      norm_num
    have hsc : searchScores c8store [(1 : ℝ), 0] = [1, 0, 0.6] := by
      unfold searchScores c8store
      simp [dot]
    rw [show resultsFor c8store (searchScores c8store (normalizeQuery [1, 0])) 2 =
        [((1 : ℝ), ⟨[("id", Json.str "a")], Json.null⟩),
          ((0.6 : ℝ), ⟨[("id", Json.str "c")], Json.null⟩)] from by
      unfold resultsFor
      rw [hq, hsc, selectTopK_c8]
      rfl]

end DriveVector
